import Mathlib

/-!
# Verification of the `bevy_skybox_cubemap` texture-conversion pipeline

Shallow embedding of `src/lib.rs` of `google/bevy_skybox_cubemap`:

* `SkyboxTextureConversion` / `make_array` — the pending-conversion registry
  (`src/lib.rs` lines 381–395);
* `convert_skyboxes` — the per-tick scheduler pass (`src/lib.rs` lines 399–422).

The texture type and `Texture::reinterpret_stacked_2d_as_array` belong to the
external engine (bevy), not to this repository; they are modelled from the
spec's description of the texture resource and of `reinterpret`, together with
the repository's own doc comment on `make_array` ("will panic if the texture
has already be reinterpreted").  Rust panics are modelled by `Option`: a
function that may panic returns `none` exactly when the original panics.
-/

/-- Texture handles are opaque ids with decidable equality
(`Handle<Image>` in the source). -/
abbrev Handle := Nat

/-- The view dimensionality choices of `bevy::render::render_resource::TextureViewDimension`. -/
inductive TextureViewDimension where
  | D1
  | D2
  | D2Array
  | Cube
  | CubeArray
  | D3
  deriving DecidableEq, Repr

/-- The part of bevy's `TextureViewDescriptor` that the source touches: the
optional view `dimension` (the remaining fields are never read or written by
this crate and are omitted). -/
structure TextureViewDescriptor where
  dimension : Option TextureViewDimension
  deriving DecidableEq, Repr

instance : Inhabited TextureViewDescriptor := ⟨⟨none⟩⟩

/-- `wgpu::Extent3d`: the size of a texture. -/
structure Extent3d where
  width : Nat
  height : Nat
  depth_or_array_layers : Nat
  deriving DecidableEq, Repr

/-- Volume of an extent, in texels: `width * height * depth_or_array_layers`. -/
def Extent3d.volume (e : Extent3d) : Nat :=
  e.width * e.height * e.depth_or_array_layers

/-- Modelled from the spec: the Texture Resource of §3, "a raw pixel buffer
with width W and height H, and a view-descriptor specifying how the GPU should
interpret dimensionality".  This is bevy's `Image`, which is owned by the
external asset table, not by this repository. -/
structure Image where
  data : List Nat
  size : Extent3d
  texture_view_descriptor : Option TextureViewDescriptor
  deriving DecidableEq, Repr

/-- Modelled from the spec: `Texture::reinterpret_stacked_2d_as_array` is
provided by the external engine and its code is not part of this repository.
Per §3 the conversion keeps "the same backing buffer" and reinterprets it as
`layers` stacked layers (pure relabelling of the size metadata, no pixel data
copied), and per the repository's doc comment on `make_array` it "will panic
if the texture has already be reinterpreted", i.e. when the texture is no
longer a flat (single-layer) stacked image.  The panic is modelled as `none`.
Per §4.2/§9 the `height = 6 * width` authoring convention is never validated. -/
def reinterpret_stacked_2d_as_array (tex : Image) (layers : Nat) : Option Image :=
  if tex.size.depth_or_array_layers = 1 then
    some { tex with
            size := { width := tex.size.width
                      height := tex.size.height / layers
                      depth_or_array_layers := layers } }
  else
    none

/-- `texture.texture_view_descriptor.get_or_insert_with(default).dimension = Some(d)`
(`src/lib.rs` line 420, and the `set_view_dimension` line of the §4.2
pseudocode): replace the view-descriptor's dimension with `d`, inserting a
default descriptor first when the texture had none. -/
def set_view_dimension (tex : Image) (d : TextureViewDimension) : Image :=
  { tex with
    texture_view_descriptor :=
      some { tex.texture_view_descriptor.getD default with dimension := some d } }

/-- The external asset table `Assets<Image>`: a handle resolves either to a
present (loaded) texture or to nothing. -/
abbrev Assets := Handle → Option Image

/-- Overwriting the texture stored at handle `h` (the effect of mutating
through `Assets::get_mut`). -/
def assetsInsert (textures : Assets) (h : Handle) (img : Image) : Assets :=
  fun h2 => if h2 = h then some img else textures h2

/-- `SkyboxTextureConversion` (`src/lib.rs` lines 381–385): the list of
texture handles that should be skyboxes, in submission order. -/
structure SkyboxTextureConversion where
  handles : List Handle
  deriving DecidableEq, Repr

/-- `SkyboxTextureConversion::make_array` (`src/lib.rs` lines 392–394):
`self.handles.push(handle)`. -/
def SkyboxTextureConversion.make_array (s : SkyboxTextureConversion) (handle : Handle) :
    SkyboxTextureConversion :=
  { s with handles := s.handles ++ [handle] }

/-- The loop of `convert_skyboxes` (`src/lib.rs` lines 403–421), with the scan
index `i` explicit.  `handles.get? i = none` is the `None => break` arm; a
present texture is removed at `i` (without advancing `i`), reinterpreted, and
its view dimension set to `Cube`; an absent one advances `i`.  A `none` result
models a panic of `reinterpret_stacked_2d_as_array`. -/
def convert_skyboxesAux (handles : List Handle) (textures : Assets) (i : Nat) :
    Option (List Handle × Assets) :=
  match hget : handles.get? i with
  | none => some (handles, textures)
  | some handle =>
    match textures handle with
    | none => convert_skyboxesAux handles textures (i + 1)
    | some texture =>
      match reinterpret_stacked_2d_as_array texture 6 with
      | none => none
      | some converted =>
        convert_skyboxesAux (handles.eraseIdx i)
          (assetsInsert textures handle
            (set_view_dimension converted TextureViewDimension.Cube)) i
termination_by handles.length - i
decreasing_by
  · have hlt : i < handles.length := by
      rcases Nat.lt_or_ge i handles.length with hc | hc
      · exact hc
      · rw [List.get?_eq_none.mpr hc] at hget
        cases hget
    omega
  · have hlt : i < handles.length := by
      rcases Nat.lt_or_ge i handles.length with hc | hc
      · exact hc
      · rw [List.get?_eq_none.mpr hc] at hget
        cases hget
    have hlen : (handles.eraseIdx i).length = handles.length - 1 :=
      List.length_eraseIdx_of_lt hlt
    omega

/-- The system `convert_skyboxes` (`src/lib.rs` lines 399–422): one scheduler
pass over the registry and the asset table, starting the scan at `i = 0`. -/
def convert_skyboxes (conversions : SkyboxTextureConversion) (textures : Assets) :
    Option (SkyboxTextureConversion × Assets) :=
  (convert_skyboxesAux conversions.handles textures 0).map
    fun p => (SkyboxTextureConversion.mk p.1, p.2)

section StepLemmas

/-- Loop step: index past the end — the `None => break` arm. -/
theorem convert_skyboxesAux_break (handles : List Handle) (textures : Assets) (i : Nat)
    (hget : handles.get? i = none) :
    convert_skyboxesAux handles textures i = some (handles, textures) := by
  rw [convert_skyboxesAux]
  split
  · rfl
  · rename_i handle heq
    rw [List.get?_eq_getElem?] at hget heq
    rw [hget] at heq
    cases heq

/-- Loop step: entry not loaded yet — advance the index. -/
theorem convert_skyboxesAux_miss (handles : List Handle) (textures : Assets) (i : Nat)
    (h : Handle) (hget : handles.get? i = some h) (habs : textures h = none) :
    convert_skyboxesAux handles textures i = convert_skyboxesAux handles textures (i + 1) := by
  rw [convert_skyboxesAux]
  split
  · simp_all
  · rename_i h2 hget2
    rw [hget2] at hget
    cases hget
    simp only [habs]

/-- Loop step: entry loaded and reinterpretation succeeds — remove it at `i`,
convert, and continue at the same index. -/
theorem convert_skyboxesAux_hit (handles : List Handle) (textures : Assets) (i : Nat)
    (h : Handle) (tex conv : Image) (hget : handles.get? i = some h)
    (hpres : textures h = some tex)
    (hconv : reinterpret_stacked_2d_as_array tex 6 = some conv) :
    convert_skyboxesAux handles textures i =
      convert_skyboxesAux (handles.eraseIdx i)
        (assetsInsert textures h (set_view_dimension conv TextureViewDimension.Cube)) i := by
  rw [convert_skyboxesAux]
  split
  · simp_all
  · rename_i h2 hget2
    rw [hget2] at hget
    cases hget
    simp only [hpres, hconv]

/-- Loop step: entry loaded but reinterpretation panics — the pass dies. -/
theorem convert_skyboxesAux_panic (handles : List Handle) (textures : Assets) (i : Nat)
    (h : Handle) (tex : Image) (hget : handles.get? i = some h)
    (hpres : textures h = some tex)
    (hconv : reinterpret_stacked_2d_as_array tex 6 = none) :
    convert_skyboxesAux handles textures i = none := by
  rw [convert_skyboxesAux]
  split
  · simp_all
  · rename_i h2 hget2
    rw [hget2] at hget
    cases hget
    simp only [hpres, hconv]

end StepLemmas

/-- The loop of `convert_skyboxes` again, instrumented with the ordered list
of handles that the pass converts (the ghost log changes nothing about the
computation; `convert_skyboxes_log_aux_fst` ties it back to
`convert_skyboxesAux`). -/
def convert_skyboxes_log_aux (handles : List Handle) (textures : Assets) (i : Nat) :
    Option (List Handle × Assets) × List Handle :=
  match hget : handles.get? i with
  | none => (some (handles, textures), [])
  | some handle =>
    match textures handle with
    | none => convert_skyboxes_log_aux handles textures (i + 1)
    | some texture =>
      match reinterpret_stacked_2d_as_array texture 6 with
      | none => (none, [])
      | some converted =>
        let rest := convert_skyboxes_log_aux (handles.eraseIdx i)
          (assetsInsert textures handle
            (set_view_dimension converted TextureViewDimension.Cube)) i
        (rest.1, handle :: rest.2)
termination_by handles.length - i
decreasing_by
  · have hlt : i < handles.length := by
      rcases Nat.lt_or_ge i handles.length with hc | hc
      · exact hc
      · rw [List.get?_eq_none.mpr hc] at hget
        cases hget
    omega
  · have hlt : i < handles.length := by
      rcases Nat.lt_or_ge i handles.length with hc | hc
      · exact hc
      · rw [List.get?_eq_none.mpr hc] at hget
        cases hget
    have hlen : (handles.eraseIdx i).length = handles.length - 1 :=
      List.length_eraseIdx_of_lt hlt
    omega

/-- The §4.2 pseudocode of the spec, transcribed as written (spec-side of the
refinement claim): look up `registry[i]`; on an absent texture advance `i`; on
a present one `remove_at(i)` without advancing, `reinterpret(texture, layers=6)`
and `set_view_dimension(texture, CUBE_ARRAY)`.  Instrumented with the same
ghost log of converted handles as `convert_skyboxes_log_aux`. -/
def scheduler_pass_spec_log_aux (registry : List Handle) (asset_table : Assets) (i : Nat) :
    Option (List Handle × Assets) × List Handle :=
  match hget : registry.get? i with
  | none => (some (registry, asset_table), [])
  | some handle =>
    match asset_table handle with
    | none => scheduler_pass_spec_log_aux registry asset_table (i + 1)
    | some texture =>
      match reinterpret_stacked_2d_as_array texture 6 with
      | none => (none, [])
      | some converted =>
        let rest := scheduler_pass_spec_log_aux (registry.eraseIdx i)
          (assetsInsert asset_table handle
            (set_view_dimension converted TextureViewDimension.CubeArray)) i
        (rest.1, handle :: rest.2)
termination_by registry.length - i
decreasing_by
  · have hlt : i < registry.length := by
      rcases Nat.lt_or_ge i registry.length with hc | hc
      · exact hc
      · rw [List.get?_eq_none.mpr hc] at hget
        cases hget
    omega
  · have hlt : i < registry.length := by
      rcases Nat.lt_or_ge i registry.length with hc | hc
      · exact hc
      · rw [List.get?_eq_none.mpr hc] at hget
        cases hget
    have hlen : (registry.eraseIdx i).length = registry.length - 1 :=
      List.length_eraseIdx_of_lt hlt
    omega

/-- The loop of `convert_skyboxes` again, instrumented with the number of
removals (converted entries) and of skips (index advances over not-yet-loaded
entries) the pass performs. -/
def convert_skyboxes_count_aux (handles : List Handle) (textures : Assets) (i : Nat) :
    Option (List Handle × Assets) × Nat × Nat :=
  match hget : handles.get? i with
  | none => (some (handles, textures), 0, 0)
  | some handle =>
    match textures handle with
    | none =>
      let rest := convert_skyboxes_count_aux handles textures (i + 1)
      (rest.1, rest.2.1, rest.2.2 + 1)
    | some texture =>
      match reinterpret_stacked_2d_as_array texture 6 with
      | none => (none, 1, 0)
      | some converted =>
        let rest := convert_skyboxes_count_aux (handles.eraseIdx i)
          (assetsInsert textures handle
            (set_view_dimension converted TextureViewDimension.Cube)) i
        (rest.1, rest.2.1 + 1, rest.2.2)
termination_by handles.length - i
decreasing_by
  · have hlt : i < handles.length := by
      rcases Nat.lt_or_ge i handles.length with hc | hc
      · exact hc
      · rw [List.get?_eq_none.mpr hc] at hget
        cases hget
    omega
  · have hlt : i < handles.length := by
      rcases Nat.lt_or_ge i handles.length with hc | hc
      · exact hc
      · rw [List.get?_eq_none.mpr hc] at hget
        cases hget
    have hlen : (handles.eraseIdx i).length = handles.length - 1 :=
      List.length_eraseIdx_of_lt hlt
    omega

section InstrumentedStepLemmas

/-- Log-instrumented loop, step: index past the end. -/
theorem convert_skyboxes_log_aux_break (handles : List Handle) (textures : Assets) (i : Nat)
    (hget : handles.get? i = none) :
    convert_skyboxes_log_aux handles textures i = (some (handles, textures), []) := by
  rw [convert_skyboxes_log_aux]
  split
  · rfl
  · rename_i handle heq
    rw [List.get?_eq_getElem?] at hget heq
    rw [hget] at heq
    cases heq

/-- Log-instrumented loop, step: entry not loaded yet. -/
theorem convert_skyboxes_log_aux_miss (handles : List Handle) (textures : Assets) (i : Nat)
    (h : Handle) (hget : handles.get? i = some h) (habs : textures h = none) :
    convert_skyboxes_log_aux handles textures i =
      convert_skyboxes_log_aux handles textures (i + 1) := by
  rw [convert_skyboxes_log_aux]
  split
  · simp_all
  · rename_i h2 hget2
    rw [hget2] at hget
    cases hget
    simp only [habs]

/-- Log-instrumented loop, step: entry loaded, reinterpretation succeeds. -/
theorem convert_skyboxes_log_aux_hit (handles : List Handle) (textures : Assets) (i : Nat)
    (h : Handle) (tex conv : Image) (hget : handles.get? i = some h)
    (hpres : textures h = some tex)
    (hconv : reinterpret_stacked_2d_as_array tex 6 = some conv) :
    convert_skyboxes_log_aux handles textures i =
      ((convert_skyboxes_log_aux (handles.eraseIdx i)
          (assetsInsert textures h (set_view_dimension conv TextureViewDimension.Cube)) i).1,
        h :: (convert_skyboxes_log_aux (handles.eraseIdx i)
          (assetsInsert textures h (set_view_dimension conv TextureViewDimension.Cube)) i).2) := by
  rw [convert_skyboxes_log_aux]
  split
  · simp_all
  · rename_i h2 hget2
    rw [hget2] at hget
    cases hget
    simp only [hpres, hconv]

/-- Log-instrumented loop, step: entry loaded, reinterpretation panics. -/
theorem convert_skyboxes_log_aux_panic (handles : List Handle) (textures : Assets) (i : Nat)
    (h : Handle) (tex : Image) (hget : handles.get? i = some h)
    (hpres : textures h = some tex)
    (hconv : reinterpret_stacked_2d_as_array tex 6 = none) :
    convert_skyboxes_log_aux handles textures i = (none, []) := by
  rw [convert_skyboxes_log_aux]
  split
  · simp_all
  · rename_i h2 hget2
    rw [hget2] at hget
    cases hget
    simp only [hpres, hconv]

/-- Spec pseudocode, step: index past the end. -/
theorem scheduler_pass_spec_log_aux_break (registry : List Handle) (asset_table : Assets)
    (i : Nat) (hget : registry.get? i = none) :
    scheduler_pass_spec_log_aux registry asset_table i = (some (registry, asset_table), []) := by
  rw [scheduler_pass_spec_log_aux]
  split
  · rfl
  · rename_i handle heq
    rw [List.get?_eq_getElem?] at hget heq
    rw [hget] at heq
    cases heq

/-- Spec pseudocode, step: entry not loaded yet. -/
theorem scheduler_pass_spec_log_aux_miss (registry : List Handle) (asset_table : Assets)
    (i : Nat) (h : Handle) (hget : registry.get? i = some h) (habs : asset_table h = none) :
    scheduler_pass_spec_log_aux registry asset_table i =
      scheduler_pass_spec_log_aux registry asset_table (i + 1) := by
  rw [scheduler_pass_spec_log_aux]
  split
  · simp_all
  · rename_i h2 hget2
    rw [hget2] at hget
    cases hget
    simp only [habs]

/-- Spec pseudocode, step: entry loaded, reinterpretation succeeds. -/
theorem scheduler_pass_spec_log_aux_hit (registry : List Handle) (asset_table : Assets)
    (i : Nat) (h : Handle) (tex conv : Image) (hget : registry.get? i = some h)
    (hpres : asset_table h = some tex)
    (hconv : reinterpret_stacked_2d_as_array tex 6 = some conv) :
    scheduler_pass_spec_log_aux registry asset_table i =
      ((scheduler_pass_spec_log_aux (registry.eraseIdx i)
          (assetsInsert asset_table h
            (set_view_dimension conv TextureViewDimension.CubeArray)) i).1,
        h :: (scheduler_pass_spec_log_aux (registry.eraseIdx i)
          (assetsInsert asset_table h
            (set_view_dimension conv TextureViewDimension.CubeArray)) i).2) := by
  rw [scheduler_pass_spec_log_aux]
  split
  · simp_all
  · rename_i h2 hget2
    rw [hget2] at hget
    cases hget
    simp only [hpres, hconv]

/-- Spec pseudocode, step: entry loaded, reinterpretation panics. -/
theorem scheduler_pass_spec_log_aux_panic (registry : List Handle) (asset_table : Assets)
    (i : Nat) (h : Handle) (tex : Image) (hget : registry.get? i = some h)
    (hpres : asset_table h = some tex)
    (hconv : reinterpret_stacked_2d_as_array tex 6 = none) :
    scheduler_pass_spec_log_aux registry asset_table i = (none, []) := by
  rw [scheduler_pass_spec_log_aux]
  split
  · simp_all
  · rename_i h2 hget2
    rw [hget2] at hget
    cases hget
    simp only [hpres, hconv]

/-- Count-instrumented loop, step: index past the end. -/
theorem convert_skyboxes_count_aux_break (handles : List Handle) (textures : Assets) (i : Nat)
    (hget : handles.get? i = none) :
    convert_skyboxes_count_aux handles textures i = (some (handles, textures), 0, 0) := by
  rw [convert_skyboxes_count_aux]
  split
  · rfl
  · rename_i handle heq
    rw [List.get?_eq_getElem?] at hget heq
    rw [hget] at heq
    cases heq

/-- Count-instrumented loop, step: entry not loaded yet. -/
theorem convert_skyboxes_count_aux_miss (handles : List Handle) (textures : Assets) (i : Nat)
    (h : Handle) (hget : handles.get? i = some h) (habs : textures h = none) :
    convert_skyboxes_count_aux handles textures i =
      ((convert_skyboxes_count_aux handles textures (i + 1)).1,
        (convert_skyboxes_count_aux handles textures (i + 1)).2.1,
        (convert_skyboxes_count_aux handles textures (i + 1)).2.2 + 1) := by
  rw [convert_skyboxes_count_aux]
  split
  · simp_all
  · rename_i h2 hget2
    rw [hget2] at hget
    cases hget
    simp only [habs]

/-- Count-instrumented loop, step: entry loaded, reinterpretation succeeds. -/
theorem convert_skyboxes_count_aux_hit (handles : List Handle) (textures : Assets) (i : Nat)
    (h : Handle) (tex conv : Image) (hget : handles.get? i = some h)
    (hpres : textures h = some tex)
    (hconv : reinterpret_stacked_2d_as_array tex 6 = some conv) :
    convert_skyboxes_count_aux handles textures i =
      ((convert_skyboxes_count_aux (handles.eraseIdx i)
          (assetsInsert textures h (set_view_dimension conv TextureViewDimension.Cube)) i).1,
        (convert_skyboxes_count_aux (handles.eraseIdx i)
          (assetsInsert textures h (set_view_dimension conv TextureViewDimension.Cube)) i).2.1 + 1,
        (convert_skyboxes_count_aux (handles.eraseIdx i)
          (assetsInsert textures h
            (set_view_dimension conv TextureViewDimension.Cube)) i).2.2) := by
  rw [convert_skyboxes_count_aux]
  split
  · simp_all
  · rename_i h2 hget2
    rw [hget2] at hget
    cases hget
    simp only [hpres, hconv]

/-- Count-instrumented loop, step: entry loaded, reinterpretation panics. -/
theorem convert_skyboxes_count_aux_panic (handles : List Handle) (textures : Assets) (i : Nat)
    (h : Handle) (tex : Image) (hget : handles.get? i = some h)
    (hpres : textures h = some tex)
    (hconv : reinterpret_stacked_2d_as_array tex 6 = none) :
    convert_skyboxes_count_aux handles textures i = (none, 1, 0) := by
  rw [convert_skyboxes_count_aux]
  split
  · simp_all
  · rename_i h2 hget2
    rw [hget2] at hget
    cases hget
    simp only [hpres, hconv]

end InstrumentedStepLemmas

section Characterization

/-- A handle read at position `i` that occurs at most once in the worklist
does not survive removal at `i`. -/
theorem not_mem_eraseIdx_of_count_le_one (handles : List Handle) (i : Nat) (h : Handle)
    (hget : handles.get? i = some h) (hcount : handles.count h ≤ 1) :
    h ∉ handles.eraseIdx i := by
  have hlt : i < handles.length := by
    rcases Nat.lt_or_ge i handles.length with hc | hc
    · exact hc
    · rw [List.get?_eq_none.mpr hc] at hget
      cases hget
  have hi : handles[i] = h := by
    rw [List.get?_eq_getElem?] at hget
    rw [List.getElem?_eq_getElem hlt] at hget
    exact Option.some.inj hget
  have hdrop : handles.drop i = h :: handles.drop (i + 1) := by
    rw [← hi]
    exact List.drop_eq_getElem_cons hlt
  have hsplit : handles = handles.take i ++ (h :: handles.drop (i + 1)) := by
    conv_lhs => rw [← List.take_append_drop i handles, hdrop]
  have hcnt : handles.count h =
      (handles.take i).count h + ((handles.drop (i + 1)).count h + 1) := by
    conv_lhs => rw [hsplit]
    rw [List.count_append, List.count_cons_self]
  have htake0 : (handles.take i).count h = 0 := by omega
  have hdrop0 : (handles.drop (i + 1)).count h = 0 := by omega
  intro hmem
  rw [List.eraseIdx_eq_take_drop_succ] at hmem
  rcases List.mem_append.mp hmem with hm | hm
  · exact List.count_eq_zero.mp htake0 hm
  · exact List.count_eq_zero.mp hdrop0 hm

/-- Main characterization of one scheduler pass from scan position `i`.
Provided every texture currently present for a worklist handle is still flat
(single layer) and no present handle occurs twice in the worklist, the pass
finishes without panicking; the surviving worklist is the prefix below `i`
followed by exactly the not-yet-loaded entries from position `i` on, in their
original order; table entries of handles outside the scanned range, or not
loaded, are untouched; and every loaded handle's texture has been
reinterpreted as 6 layers with its view dimension set to `Cube`. -/
theorem convert_skyboxesAux_characterization :
    ∀ (n : Nat) (handles : List Handle) (textures : Assets) (i : Nat),
      handles.length - i ≤ n →
      (∀ h ∈ handles, ∀ tex, textures h = some tex → tex.size.depth_or_array_layers = 1) →
      (∀ h ∈ handles, (textures h).isSome = true → handles.count h ≤ 1) →
      ∃ tf : Assets,
        convert_skyboxesAux handles textures i =
          some (handles.take i ++
                  (handles.drop i).filter (fun h => (textures h).isNone), tf) ∧
        (∀ h, (h ∉ handles.drop i ∨ textures h = none) → tf h = textures h) ∧
        (∀ h ∈ handles.drop i, ∀ tex, textures h = some tex →
          ∃ conv, reinterpret_stacked_2d_as_array tex 6 = some conv ∧
            tf h = some (set_view_dimension conv TextureViewDimension.Cube)) := by
  intro n
  induction n with
  | zero =>
    intro handles textures i hn _H1 _H2
    have hle : handles.length ≤ i := by omega
    have hget : handles.get? i = none := List.get?_eq_none.mpr hle
    refine ⟨textures, ?_, ?_, ?_⟩
    · rw [convert_skyboxesAux_break handles textures i hget,
        List.take_of_length_le hle, List.drop_eq_nil_of_le hle]
      simp
    · intro h _
      rfl
    · intro h hmem
      rw [List.drop_eq_nil_of_le hle] at hmem
      cases hmem
  | succ n ih =>
    intro handles textures i hn H1 H2
    cases hget : handles.get? i with
    | none =>
      have hle : handles.length ≤ i := List.get?_eq_none.mp hget
      refine ⟨textures, ?_, ?_, ?_⟩
      · rw [convert_skyboxesAux_break handles textures i hget,
          List.take_of_length_le hle, List.drop_eq_nil_of_le hle]
        simp
      · intro h _
        rfl
      · intro h hmem
        rw [List.drop_eq_nil_of_le hle] at hmem
        cases hmem
    | some h =>
      have hlt : i < handles.length := by
        rcases Nat.lt_or_ge i handles.length with hc | hc
        · exact hc
        · rw [List.get?_eq_none.mpr hc] at hget
          cases hget
      have hi : handles[i] = h := by
        have hget2 := hget
        rw [List.get?_eq_getElem?] at hget2
        rw [List.getElem?_eq_getElem hlt] at hget2
        exact Option.some.inj hget2
      have hdrop : handles.drop i = h :: handles.drop (i + 1) := by
        rw [← hi]
        exact List.drop_eq_getElem_cons hlt
      have hmemh : h ∈ handles := List.get?_mem hget
      cases hpres : textures h with
      | none =>
        rw [convert_skyboxesAux_miss handles textures i h hget hpres]
        obtain ⟨tf, heq, hc2, hc3⟩ := ih handles textures (i + 1) (by omega) H1 H2
        have hgetElem : handles[i]? = some h := by
          rw [← List.get?_eq_getElem?]
          exact hget
        refine ⟨tf, ?_, ?_, ?_⟩
        · rw [heq, List.take_succ, hgetElem, hdrop, List.filter_cons]
          simp [hpres]
        · intro h0 hcond
          apply hc2
          rcases hcond with hnm | habs
          · left
            intro hmem
            exact hnm (by rw [hdrop]; exact List.mem_cons_of_mem _ hmem)
          · right
            exact habs
        · intro h0 hmem0 tex0 htex0
          rw [hdrop] at hmem0
          rcases List.mem_cons.mp hmem0 with rfl | hmem0
          · rw [hpres] at htex0
            cases htex0
          · exact hc3 h0 hmem0 tex0 htex0
      | some tex =>
        have hdepth : tex.size.depth_or_array_layers = 1 := H1 h hmemh tex hpres
        obtain ⟨conv, hconv⟩ : ∃ c, reinterpret_stacked_2d_as_array tex 6 = some c := by
          unfold reinterpret_stacked_2d_as_array
          rw [if_pos hdepth]
          exact ⟨_, rfl⟩
        have hnm : h ∉ handles.eraseIdx i :=
          not_mem_eraseIdx_of_count_le_one handles i h hget
            (H2 h hmemh (by rw [hpres]; rfl))
        have herase : handles.eraseIdx i = handles.take i ++ handles.drop (i + 1) :=
          List.eraseIdx_eq_take_drop_succ handles i
        have htlen : (handles.take i).length = i := by
          rw [List.length_take]
          omega
        have ht : (handles.eraseIdx i).take i = handles.take i := by
          rw [herase]
          exact List.take_left' htlen
        have hd : (handles.eraseIdx i).drop i = handles.drop (i + 1) := by
          rw [herase]
          exact List.drop_left' htlen
        have hnewT_ne : ∀ h0, h0 ≠ h →
            assetsInsert textures h (set_view_dimension conv TextureViewDimension.Cube) h0 =
              textures h0 := by
          intro h0 hne
          simp [assetsInsert, hne]
        have hnewT_h :
            assetsInsert textures h (set_view_dimension conv TextureViewDimension.Cube) h =
              some (set_view_dimension conv TextureViewDimension.Cube) := by
          simp [assetsInsert]
        have H1' : ∀ h0 ∈ handles.eraseIdx i, ∀ tex0,
            assetsInsert textures h (set_view_dimension conv TextureViewDimension.Cube) h0 =
              some tex0 → tex0.size.depth_or_array_layers = 1 := by
          intro h0 hm0 tex0 ht0
          have hne : h0 ≠ h := fun e => hnm (e ▸ hm0)
          rw [hnewT_ne h0 hne] at ht0
          exact H1 h0 (List.eraseIdx_subset handles i hm0) tex0 ht0
        have H2' : ∀ h0 ∈ handles.eraseIdx i,
            (assetsInsert textures h
              (set_view_dimension conv TextureViewDimension.Cube) h0).isSome = true →
            (handles.eraseIdx i).count h0 ≤ 1 := by
          intro h0 hm0 hs0
          have hne : h0 ≠ h := fun e => hnm (e ▸ hm0)
          rw [hnewT_ne h0 hne] at hs0
          calc (handles.eraseIdx i).count h0 ≤ handles.count h0 :=
                List.Sublist.count_le (List.eraseIdx_sublist handles i) h0
            _ ≤ 1 := H2 h0 (List.eraseIdx_subset handles i hm0) hs0
        have hmeas : (handles.eraseIdx i).length - i ≤ n := by
          have hlen : (handles.eraseIdx i).length = handles.length - 1 :=
            List.length_eraseIdx_of_lt hlt
          omega
        obtain ⟨tf, heq, hc2, hc3⟩ := ih (handles.eraseIdx i)
          (assetsInsert textures h (set_view_dimension conv TextureViewDimension.Cube)) i
          hmeas H1' H2'
        have hfc : (handles.drop (i + 1)).filter
              (fun h0 => (assetsInsert textures h
                (set_view_dimension conv TextureViewDimension.Cube) h0).isNone) =
            (handles.drop (i + 1)).filter (fun h0 => (textures h0).isNone) := by
          apply List.filter_congr
          intro x hx
          have hne : x ≠ h := by
            intro e
            subst e
            exact hnm (by rw [herase]; exact List.mem_append_right _ hx)
          rw [hnewT_ne x hne]
        refine ⟨tf, ?_, ?_, ?_⟩
        · rw [convert_skyboxesAux_hit handles textures i h tex conv hget hpres hconv, heq,
            ht, hd, hfc, hdrop, List.filter_cons]
          simp [hpres]
        · intro h0 hcond
          by_cases hne : h0 = h
          · subst hne
            rcases hcond with hnm2 | habs
            · exact (hnm2 (by rw [hdrop]; exact List.mem_cons_self h0 _)).elim
            · rw [hpres] at habs
              cases habs
          · have hstep : tf h0 =
                assetsInsert textures h
                  (set_view_dimension conv TextureViewDimension.Cube) h0 := by
              apply hc2
              rcases hcond with hnm2 | habs
              · left
                rw [hd]
                intro hm
                exact hnm2 (by rw [hdrop]; exact List.mem_cons_of_mem _ hm)
              · right
                rw [hnewT_ne h0 hne]
                exact habs
            rw [hstep, hnewT_ne h0 hne]
        · intro h0 hm0 tex0 ht0
          rw [hdrop] at hm0
          rcases List.mem_cons.mp hm0 with rfl | hm0
          · rw [hpres] at ht0
            have htex : tex = tex0 := Option.some.inj ht0
            refine ⟨conv, by rw [← htex]; exact hconv, ?_⟩
            have hstep : tf h0 =
                assetsInsert textures h0
                  (set_view_dimension conv TextureViewDimension.Cube) h0 := by
              apply hc2
              left
              rw [hd]
              intro hm
              exact hnm (by rw [herase]; exact List.mem_append_right _ hm)
            rw [hstep, hnewT_h]
          · have hne : h0 ≠ h := by
              intro e
              apply hnm
              rw [herase]
              exact List.mem_append_right _ (e ▸ hm0)
            have ht0' :
                assetsInsert textures h
                  (set_view_dimension conv TextureViewDimension.Cube) h0 = some tex0 := by
              rw [hnewT_ne h0 hne]
              exact ht0
            exact hc3 h0 (by rw [hd]; exact hm0) tex0 ht0'

end Characterization

section Hypotheses

/-- Decidable side condition: every texture the table currently stores for a
handle of the worklist is still flat (a single-layer stacked image, i.e. not
yet reinterpreted). -/
def all_flat (handles : List Handle) (textures : Assets) : Bool :=
  handles.all fun h =>
    match textures h with
    | none => true
    | some tex => tex.size.depth_or_array_layers == 1

/-- Decidable side condition: no handle that resolves to a present texture
occurs twice in the worklist. -/
def no_dup_ready (handles : List Handle) (textures : Assets) : Bool :=
  handles.all fun h =>
    match textures h with
    | none => true
    | some _ => decide (handles.count h ≤ 1)

/-- Decidable condition: some worklist handle resolves to a loaded texture
that is malformed, i.e. whose height is not 6 times its width. -/
def has_malformed (handles : List Handle) (textures : Assets) : Bool :=
  handles.any fun h =>
    match textures h with
    | none => false
    | some tex => decide (tex.size.height ≠ 6 * tex.size.width)

theorem all_flat_spec (handles : List Handle) (textures : Assets)
    (hb : all_flat handles textures = true) :
    ∀ h ∈ handles, ∀ tex, textures h = some tex → tex.size.depth_or_array_layers = 1 := by
  intro h hmem tex htex
  have := List.all_eq_true.mp hb h hmem
  rw [htex] at this
  simp at this
  exact this

theorem no_dup_ready_spec (handles : List Handle) (textures : Assets)
    (hb : no_dup_ready handles textures = true) :
    ∀ h ∈ handles, (textures h).isSome = true → handles.count h ≤ 1 := by
  intro h hmem hsome
  have := List.all_eq_true.mp hb h hmem
  cases htex : textures h with
  | none =>
    rw [htex] at hsome
    cases hsome
  | some tex =>
    rw [htex] at this
    simp at this
    exact this

end Hypotheses

section Ticks

/-- Running the scheduler pass for `n` successive host update ticks (the
asset table is only ever touched by the pass itself).  `none` propagates a
panic of any pass. -/
def run_ticks : Nat → SkyboxTextureConversion × Assets →
    Option (SkyboxTextureConversion × Assets)
  | 0, st => some st
  | n + 1, st =>
    match convert_skyboxes st.1 st.2 with
    | none => none
    | some st2 => run_ticks n st2

/-- A single pass over a one-element registry whose texture is absent leaves
both the registry and the table untouched. -/
theorem convert_skyboxes_single_pending (h : Handle) (textures : Assets)
    (habs : textures h = none) :
    convert_skyboxes ⟨[h]⟩ textures = some (⟨[h]⟩, textures) := by
  unfold convert_skyboxes
  rw [convert_skyboxesAux_miss [h] textures 0 h rfl habs,
    convert_skyboxesAux_break [h] textures 1 rfl]
  rfl

end Ticks

section Projections

/-- The ghost log changes nothing: first component of the log-instrumented
loop is the plain loop. -/
theorem convert_skyboxes_log_aux_fst_fuel :
    ∀ (n : Nat) (handles : List Handle) (textures : Assets) (i : Nat),
      handles.length - i ≤ n →
      (convert_skyboxes_log_aux handles textures i).1 =
        convert_skyboxesAux handles textures i := by
  intro n
  induction n with
  | zero =>
    intro handles textures i hn
    have hget : handles.get? i = none := List.get?_eq_none.mpr (by omega)
    rw [convert_skyboxes_log_aux_break handles textures i hget,
      convert_skyboxesAux_break handles textures i hget]
  | succ n ih =>
    intro handles textures i hn
    cases hget : handles.get? i with
    | none =>
      rw [convert_skyboxes_log_aux_break handles textures i hget,
        convert_skyboxesAux_break handles textures i hget]
    | some h =>
      have hlt : i < handles.length := by
        rcases Nat.lt_or_ge i handles.length with hc | hc
        · exact hc
        · rw [List.get?_eq_none.mpr hc] at hget
          cases hget
      cases hpres : textures h with
      | none =>
        rw [convert_skyboxes_log_aux_miss handles textures i h hget hpres,
          convert_skyboxesAux_miss handles textures i h hget hpres]
        exact ih handles textures (i + 1) (by omega)
      | some tex =>
        cases hconv : reinterpret_stacked_2d_as_array tex 6 with
        | none =>
          rw [convert_skyboxes_log_aux_panic handles textures i h tex hget hpres hconv,
            convert_skyboxesAux_panic handles textures i h tex hget hpres hconv]
        | some conv =>
          rw [convert_skyboxes_log_aux_hit handles textures i h tex conv hget hpres hconv,
            convert_skyboxesAux_hit handles textures i h tex conv hget hpres hconv]
          have hlen : (handles.eraseIdx i).length = handles.length - 1 :=
            List.length_eraseIdx_of_lt hlt
          exact ih (handles.eraseIdx i) _ i (by omega)

/-- `convert_skyboxes_log_aux_fst_fuel` with the fuel discharged. -/
theorem convert_skyboxes_log_aux_fst (handles : List Handle) (textures : Assets) (i : Nat) :
    (convert_skyboxes_log_aux handles textures i).1 =
      convert_skyboxesAux handles textures i :=
  convert_skyboxes_log_aux_fst_fuel handles.length handles textures i (by omega)

/-- The ghost counters change nothing: first component of the
count-instrumented loop is the plain loop. -/
theorem convert_skyboxes_count_aux_fst_fuel :
    ∀ (n : Nat) (handles : List Handle) (textures : Assets) (i : Nat),
      handles.length - i ≤ n →
      (convert_skyboxes_count_aux handles textures i).1 =
        convert_skyboxesAux handles textures i := by
  intro n
  induction n with
  | zero =>
    intro handles textures i hn
    have hget : handles.get? i = none := List.get?_eq_none.mpr (by omega)
    rw [convert_skyboxes_count_aux_break handles textures i hget,
      convert_skyboxesAux_break handles textures i hget]
  | succ n ih =>
    intro handles textures i hn
    cases hget : handles.get? i with
    | none =>
      rw [convert_skyboxes_count_aux_break handles textures i hget,
        convert_skyboxesAux_break handles textures i hget]
    | some h =>
      have hlt : i < handles.length := by
        rcases Nat.lt_or_ge i handles.length with hc | hc
        · exact hc
        · rw [List.get?_eq_none.mpr hc] at hget
          cases hget
      cases hpres : textures h with
      | none =>
        rw [convert_skyboxes_count_aux_miss handles textures i h hget hpres,
          convert_skyboxesAux_miss handles textures i h hget hpres]
        exact ih handles textures (i + 1) (by omega)
      | some tex =>
        cases hconv : reinterpret_stacked_2d_as_array tex 6 with
        | none =>
          rw [convert_skyboxes_count_aux_panic handles textures i h tex hget hpres hconv,
            convert_skyboxesAux_panic handles textures i h tex hget hpres hconv]
        | some conv =>
          rw [convert_skyboxes_count_aux_hit handles textures i h tex conv hget hpres hconv,
            convert_skyboxesAux_hit handles textures i h tex conv hget hpres hconv]
          have hlen : (handles.eraseIdx i).length = handles.length - 1 :=
            List.length_eraseIdx_of_lt hlt
          exact ih (handles.eraseIdx i) _ i (by omega)

/-- `convert_skyboxes_count_aux_fst_fuel` with the fuel discharged. -/
theorem convert_skyboxes_count_aux_fst (handles : List Handle) (textures : Assets) (i : Nat) :
    (convert_skyboxes_count_aux handles textures i).1 =
      convert_skyboxesAux handles textures i :=
  convert_skyboxes_count_aux_fst_fuel handles.length handles textures i (by omega)

end Projections

section Refinement

/-- The buffer-and-size part of a texture, ignoring the view descriptor (the
only field on which the implemented pass and the §4.2 pseudocode differ). -/
def stripView (img : Image) : List Nat × Extent3d := (img.data, img.size)

/-- Reinterpretation only looks at (and only changes) the buffer-and-size
part, so textures equal up to the view descriptor reinterpret alike. -/
theorem reinterpret_stripView (a b : Image) (hs : stripView a = stripView b) :
    (reinterpret_stacked_2d_as_array a 6).map stripView =
      (reinterpret_stacked_2d_as_array b 6).map stripView := by
  have hdata : a.data = b.data := congrArg Prod.fst hs
  have hsize : a.size = b.size := congrArg Prod.snd hs
  unfold reinterpret_stacked_2d_as_array
  rw [hsize, hdata]
  split
  · simp [stripView, hsize, hdata]
  · rfl

/-- Setting the view dimension never changes the buffer-and-size part. -/
theorem stripView_set_view_dimension (img : Image) (d : TextureViewDimension) :
    stripView (set_view_dimension img d) = stripView img := rfl

/-- The implemented loop and the §4.2 pseudocode loop, run over tables that
agree up to view descriptors, keep identical registries and convert identical
handles in identical order. -/
theorem code_spec_log_agree_fuel :
    ∀ (n : Nat) (handles : List Handle) (t1 t2 : Assets) (i : Nat),
      handles.length - i ≤ n →
      (∀ h, (t1 h).map stripView = (t2 h).map stripView) →
      (convert_skyboxes_log_aux handles t1 i).1.map Prod.fst =
          (scheduler_pass_spec_log_aux handles t2 i).1.map Prod.fst ∧
        (convert_skyboxes_log_aux handles t1 i).2 =
          (scheduler_pass_spec_log_aux handles t2 i).2 := by
  intro n
  induction n with
  | zero =>
    intro handles t1 t2 i hn _hrel
    have hget : handles.get? i = none := List.get?_eq_none.mpr (by omega)
    rw [convert_skyboxes_log_aux_break handles t1 i hget,
      scheduler_pass_spec_log_aux_break handles t2 i hget]
    exact ⟨rfl, rfl⟩
  | succ n ih =>
    intro handles t1 t2 i hn hrel
    cases hget : handles.get? i with
    | none =>
      rw [convert_skyboxes_log_aux_break handles t1 i hget,
        scheduler_pass_spec_log_aux_break handles t2 i hget]
      exact ⟨rfl, rfl⟩
    | some h =>
      have hlt : i < handles.length := by
        rcases Nat.lt_or_ge i handles.length with hc | hc
        · exact hc
        · rw [List.get?_eq_none.mpr hc] at hget
          cases hget
      cases hpres1 : t1 h with
      | none =>
        have hpres2 : t2 h = none := by
          have := hrel h
          rw [hpres1] at this
          exact (Option.map_eq_none).mp this.symm
        rw [convert_skyboxes_log_aux_miss handles t1 i h hget hpres1,
          scheduler_pass_spec_log_aux_miss handles t2 i h hget hpres2]
        exact ih handles t1 t2 (i + 1) (by omega) hrel
      | some tex1 =>
        obtain ⟨tex2, hpres2, hstrip⟩ :
            ∃ tex2, t2 h = some tex2 ∧ stripView tex1 = stripView tex2 := by
          have := hrel h
          rw [hpres1] at this
          cases h2 : t2 h with
          | none =>
            rw [h2] at this
            cases this
          | some tex2 =>
            rw [h2] at this
            exact ⟨tex2, rfl, Option.some.inj this⟩
        have hrconv := reinterpret_stripView tex1 tex2 hstrip
        cases hconv1 : reinterpret_stacked_2d_as_array tex1 6 with
        | none =>
          have hconv2 : reinterpret_stacked_2d_as_array tex2 6 = none := by
            rw [hconv1] at hrconv
            exact (Option.map_eq_none).mp hrconv.symm
          rw [convert_skyboxes_log_aux_panic handles t1 i h tex1 hget hpres1 hconv1,
            scheduler_pass_spec_log_aux_panic handles t2 i h tex2 hget hpres2 hconv2]
          exact ⟨rfl, rfl⟩
        | some conv1 =>
          obtain ⟨conv2, hconv2, hstripc⟩ :
              ∃ conv2, reinterpret_stacked_2d_as_array tex2 6 = some conv2 ∧
                stripView conv1 = stripView conv2 := by
            rw [hconv1] at hrconv
            cases h2 : reinterpret_stacked_2d_as_array tex2 6 with
            | none =>
              rw [h2] at hrconv
              cases hrconv
            | some conv2 =>
              rw [h2] at hrconv
              exact ⟨conv2, rfl, Option.some.inj hrconv⟩
          rw [convert_skyboxes_log_aux_hit handles t1 i h tex1 conv1 hget hpres1 hconv1,
            scheduler_pass_spec_log_aux_hit handles t2 i h tex2 conv2 hget hpres2 hconv2]
          have hrel2 : ∀ h0,
              ((assetsInsert t1 h (set_view_dimension conv1 TextureViewDimension.Cube)) h0).map
                  stripView =
                ((assetsInsert t2 h
                  (set_view_dimension conv2 TextureViewDimension.CubeArray)) h0).map
                  stripView := by
            intro h0
            by_cases he : h0 = h
            · subst he
              simp [assetsInsert, stripView_set_view_dimension, hstripc]
            · simp only [assetsInsert, if_neg he]
              exact hrel h0
          have hlen : (handles.eraseIdx i).length = handles.length - 1 :=
            List.length_eraseIdx_of_lt hlt
          obtain ⟨hfst, hsnd⟩ := ih (handles.eraseIdx i) _ _ i (by omega) hrel2
          exact ⟨hfst, by rw [hsnd]⟩

end Refinement

section Counting

/-- Loop-iteration accounting: the scan makes at most `initial length` many
steps in total (counting both removals and skips), and on a pass that
finishes normally the number of removals is exactly the number of entries
that disappeared while the number of skips is exactly the number of entries
that survive. -/
theorem convert_skyboxes_count_aux_spec :
    ∀ (n : Nat) (handles : List Handle) (textures : Assets) (i : Nat),
      handles.length - i ≤ n → i ≤ handles.length →
      (convert_skyboxes_count_aux handles textures i).2.1 +
          (convert_skyboxes_count_aux handles textures i).2.2 + i ≤ handles.length ∧
        ∀ fh tf, (convert_skyboxes_count_aux handles textures i).1 = some (fh, tf) →
          (convert_skyboxes_count_aux handles textures i).2.1 + fh.length =
              handles.length ∧
            (convert_skyboxes_count_aux handles textures i).2.2 + i = fh.length := by
  intro n
  induction n with
  | zero =>
    intro handles textures i hn hi
    have hget : handles.get? i = none := List.get?_eq_none.mpr (by omega)
    rw [convert_skyboxes_count_aux_break handles textures i hget]
    dsimp only
    refine ⟨by omega, ?_⟩
    intro fh tf heq
    have hfh : handles = fh := congrArg Prod.fst (Option.some.inj heq)
    subst hfh
    omega
  | succ n ih =>
    intro handles textures i hn hi
    cases hget : handles.get? i with
    | none =>
      have hle : handles.length ≤ i := List.get?_eq_none.mp hget
      rw [convert_skyboxes_count_aux_break handles textures i hget]
      dsimp only
      refine ⟨by omega, ?_⟩
      intro fh tf heq
      have hfh : handles = fh := congrArg Prod.fst (Option.some.inj heq)
      subst hfh
      omega
    | some h =>
      have hlt : i < handles.length := by
        rcases Nat.lt_or_ge i handles.length with hc | hc
        · exact hc
        · rw [List.get?_eq_none.mpr hc] at hget
          cases hget
      cases hpres : textures h with
      | none =>
        rw [convert_skyboxes_count_aux_miss handles textures i h hget hpres]
        obtain ⟨hb, he⟩ := ih handles textures (i + 1) (by omega) (by omega)
        dsimp only
        refine ⟨by omega, ?_⟩
        intro fh tf heq
        obtain ⟨he1, he2⟩ := he fh tf heq
        omega
      | some tex =>
        cases hconv : reinterpret_stacked_2d_as_array tex 6 with
        | none =>
          rw [convert_skyboxes_count_aux_panic handles textures i h tex hget hpres hconv]
          dsimp only
          refine ⟨by omega, ?_⟩
          intro fh tf heq
          cases heq
        | some conv =>
          rw [convert_skyboxes_count_aux_hit handles textures i h tex conv hget hpres hconv]
          have hlen : (handles.eraseIdx i).length = handles.length - 1 :=
            List.length_eraseIdx_of_lt hlt
          obtain ⟨hb, he⟩ := ih (handles.eraseIdx i)
            (assetsInsert textures h (set_view_dimension conv TextureViewDimension.Cube)) i
            (by omega) (by omega)
          dsimp only
          refine ⟨by omega, ?_⟩
          intro fh tf heq
          obtain ⟨he1, he2⟩ := he fh tf heq
          omega

end Counting

section ReinterpretFacts

/-- Exact description of a successful reinterpretation: it requires a flat
texture and only relabels the size metadata. -/
theorem reinterpret_eq_some_iff (tex conv : Image) :
    reinterpret_stacked_2d_as_array tex 6 = some conv ↔
      tex.size.depth_or_array_layers = 1 ∧
        conv = { tex with
          size := { width := tex.size.width
                    height := tex.size.height / 6
                    depth_or_array_layers := 6 } } := by
  unfold reinterpret_stacked_2d_as_array
  constructor
  · intro h
    split at h
    · exact ⟨by assumption, (Option.some.inj h).symm⟩
    · cases h
  · rintro ⟨h1, rfl⟩
    rw [if_pos h1]

/-- The view descriptor written by `set_view_dimension` holds exactly the
requested dimension (the descriptor has no other live fields). -/
theorem set_view_dimension_descriptor (img : Image) (d : TextureViewDimension) :
    (set_view_dimension img d).texture_view_descriptor = some ⟨some d⟩ := rfl

end ReinterpretFacts

section Claims

/-- **C5.** The implemented `convert_skyboxes` loop (`get(i)`, break at the
end, remove at `i` without advancing on a hit, advance on a miss) computes
the same final registry as the §4.2 index-based pseudocode loop and performs
the same conversions in the same order, for every initial registry, asset
table, and scan position; and the log-instrumented loop used for the
comparison is the implemented loop (its first component coincides with
`convert_skyboxesAux`). -/
theorem c5_loop_refines_spec_pseudocode (handles : List Handle) (textures : Assets)
    (i : Nat) :
    (convert_skyboxes_log_aux handles textures i).1.map Prod.fst =
        (scheduler_pass_spec_log_aux handles textures i).1.map Prod.fst ∧
      (convert_skyboxes_log_aux handles textures i).2 =
        (scheduler_pass_spec_log_aux handles textures i).2 ∧
      (convert_skyboxes_log_aux handles textures i).1 =
        convert_skyboxesAux handles textures i := by
  obtain ⟨h1, h2⟩ := code_spec_log_agree_fuel handles.length handles textures textures i
    (by omega) (fun h => rfl)
  exact ⟨h1, h2, convert_skyboxes_log_aux_fst handles textures i⟩

/-- **C6.** A texture of width `W` and height `6 * W` that undergoes
conversion becomes 6 layers of `W × W` each over the very same pixel buffer:
layer count 6, layer width and height both `W`, bit-identical data (hence
identical byte size) and identical texel volume. -/
theorem c6_reinterpret_dimension_invariant (tex conv : Image)
    (hconv : reinterpret_stacked_2d_as_array tex 6 = some conv)
    (hdim : tex.size.height = 6 * tex.size.width) :
    conv.size.depth_or_array_layers = 6 ∧
      conv.size.width = tex.size.width ∧
      conv.size.height = tex.size.width ∧
      conv.data = tex.data ∧
      conv.data.length = tex.data.length ∧
      conv.size.volume = tex.size.volume := by
  obtain ⟨hflat, rfl⟩ := (reinterpret_eq_some_iff tex conv).mp hconv
  have hdiv : tex.size.height / 6 = tex.size.width := by
    rw [hdim]
    exact Nat.mul_div_cancel_left _ (by norm_num)
  refine ⟨rfl, rfl, hdiv, rfl, rfl, ?_⟩
  unfold Extent3d.volume
  rw [hdiv, hdim, hflat]
  ring

/-- **C7.** `make_array` appends the submitted handle at the end of the
worklist, always succeeds, grows the worklist by exactly one, and performs no
deduplication: submitting the same handle twice yields two independent
entries. -/
theorem c7_make_array_appends (s : SkyboxTextureConversion) (handle : Handle) :
    (s.make_array handle).handles = s.handles ++ [handle] ∧
      (s.make_array handle).handles.length = s.handles.length + 1 ∧
      ((s.make_array handle).make_array handle).handles.count handle =
        s.handles.count handle + 2 := by
  refine ⟨rfl, by simp [SkyboxTextureConversion.make_array], ?_⟩
  simp [SkyboxTextureConversion.make_array, List.count_append]

/-- **C8.** A single pending handle whose texture never becomes present
survives any number of scheduler passes unchanged: after `n` ticks (1000
included) the registry still holds exactly that one handle, the table is
untouched, and no pass panics. -/
theorem c8_never_loaded_stays_pending (h : Handle) (textures : Assets) (n : Nat)
    (habs : textures h = none) :
    run_ticks n (⟨[h]⟩, textures) = some (⟨[h]⟩, textures) ∧
      (SkyboxTextureConversion.mk [h]).handles.length = 1 := by
  refine ⟨?_, rfl⟩
  induction n with
  | zero => rfl
  | succ n ih =>
    rw [run_ticks, convert_skyboxes_single_pending h textures habs]
    exact ih

/-- **C8 witness.** The concrete 1000-tick scenario of §8 of the spec. -/
theorem c8_witness :
    ((fun _ => none : Assets) 0 = none) ∧
      (run_ticks 1000 (⟨[0]⟩, fun _ => none) = some (⟨[0]⟩, fun _ => none) ∧
        (SkyboxTextureConversion.mk [0]).handles.length = 1) :=
  ⟨rfl, c8_never_loaded_stays_pending 0 (fun _ => none) 1000 rfl⟩

/-- **C10.** The scheduler pass terminates on every finite registry with
bounded work: the instrumented loop is the implemented loop, the total number
of removals plus skips is at most the initial worklist length, and on a
normally finishing pass the removals are exactly the converted entries
(initial minus final length) while the skips are exactly the surviving
entries (final length). -/
theorem c10_pass_terminates_bounded (handles : List Handle) (textures : Assets) :
    (convert_skyboxes_count_aux handles textures 0).1 =
        convert_skyboxesAux handles textures 0 ∧
      (convert_skyboxes_count_aux handles textures 0).2.1 +
          (convert_skyboxes_count_aux handles textures 0).2.2 ≤ handles.length ∧
        ∀ fh tf, (convert_skyboxes_count_aux handles textures 0).1 = some (fh, tf) →
          (convert_skyboxes_count_aux handles textures 0).2.1 =
              handles.length - fh.length ∧
            (convert_skyboxes_count_aux handles textures 0).2.2 = fh.length := by
  obtain ⟨hb, he⟩ := convert_skyboxes_count_aux_spec handles.length handles textures 0
    (by omega) (by omega)
  refine ⟨convert_skyboxes_count_aux_fst handles textures 0, by omega, ?_⟩
  intro fh tf heq
  obtain ⟨h1, h2⟩ := he fh tf heq
  omega

/-- **C10 witness.** The accounting at a concrete one-element registry with
an absent texture: zero removals and one skip. -/
theorem c10_witness :
    (convert_skyboxes_count_aux [0] (fun _ => none) 0).2.1 +
        (convert_skyboxes_count_aux [0] (fun _ => none) 0).2.2 ≤ [0].length ∧
      (convert_skyboxes_count_aux [0] (fun _ => none) 0).2.1 =
          [0].length - [0].length ∧
        (convert_skyboxes_count_aux [0] (fun _ => none) 0).2.2 = [0].length :=
  ⟨(c10_pass_terminates_bounded [0] (fun _ => none)).2.1,
    (c10_pass_terminates_bounded [0] (fun _ => none)).2.2 [0] (fun _ => none) (by
      rw [convert_skyboxes_count_aux_miss [0] (fun _ => none) 0 0 rfl rfl,
        convert_skyboxes_count_aux_break [0] (fun _ => none) 1 rfl])⟩

/-- **C6 witness.** The 1 × 6 stacked texture converts to 6 layers of 1 × 1. -/
theorem c6_witness :
    reinterpret_stacked_2d_as_array ⟨[10, 11, 12, 13, 14, 15], ⟨1, 6, 1⟩, none⟩ 6 =
        some ⟨[10, 11, 12, 13, 14, 15], ⟨1, 1, 6⟩, none⟩ ∧
      (⟨[10, 11, 12, 13, 14, 15], ⟨1, 6, 1⟩, none⟩ : Image).size.height =
        6 * (⟨[10, 11, 12, 13, 14, 15], ⟨1, 6, 1⟩, none⟩ : Image).size.width ∧
      ((⟨[10, 11, 12, 13, 14, 15], ⟨1, 1, 6⟩, none⟩ : Image).size.depth_or_array_layers = 6 ∧
        (⟨[10, 11, 12, 13, 14, 15], ⟨1, 1, 6⟩, none⟩ : Image).size.width =
            (⟨[10, 11, 12, 13, 14, 15], ⟨1, 6, 1⟩, none⟩ : Image).size.width ∧
          (⟨[10, 11, 12, 13, 14, 15], ⟨1, 1, 6⟩, none⟩ : Image).size.height =
              (⟨[10, 11, 12, 13, 14, 15], ⟨1, 6, 1⟩, none⟩ : Image).size.width ∧
            (⟨[10, 11, 12, 13, 14, 15], ⟨1, 1, 6⟩, none⟩ : Image).data =
                (⟨[10, 11, 12, 13, 14, 15], ⟨1, 6, 1⟩, none⟩ : Image).data ∧
              (⟨[10, 11, 12, 13, 14, 15], ⟨1, 1, 6⟩, none⟩ : Image).data.length =
                  (⟨[10, 11, 12, 13, 14, 15], ⟨1, 6, 1⟩, none⟩ : Image).data.length ∧
                (⟨[10, 11, 12, 13, 14, 15], ⟨1, 1, 6⟩, none⟩ : Image).size.volume =
                  (⟨[10, 11, 12, 13, 14, 15], ⟨1, 6, 1⟩, none⟩ : Image).size.volume) :=
  ⟨rfl, rfl,
    c6_reinterpret_dimension_invariant ⟨[10, 11, 12, 13, 14, 15], ⟨1, 6, 1⟩, none⟩
      ⟨[10, 11, 12, 13, 14, 15], ⟨1, 1, 6⟩, none⟩ rfl rfl⟩

/-- A well-formed 1 × 6 vertically stacked skybox source texture. -/
def flatStack : Image := ⟨[10, 11, 12, 13, 14, 15], ⟨1, 6, 1⟩, none⟩

/-- `flatStack` after one reinterpretation: 6 layers of 1 × 1. -/
def flatStackLayers : Image := ⟨[10, 11, 12, 13, 14, 15], ⟨1, 1, 6⟩, none⟩

/-- A texture that has already been converted into a 6-layer array (note its
height, 1, is not 6 times its width, 1). -/
def alreadyArray : Image :=
  ⟨[9, 9, 9, 9, 9, 9], ⟨1, 1, 6⟩, some ⟨some TextureViewDimension.Cube⟩⟩

/-- A flat but malformed texture: height 5 is not 6 times width 1. -/
def malformedFlat : Image := ⟨[20, 21, 22, 23, 24], ⟨1, 5, 1⟩, none⟩

/-- Table where handle 0 is a loaded flat stack and everything else is
pending. -/
def flatTable : Assets := fun h => if h = 0 then some flatStack else none

/-- Table where handle 0 is a loaded, already-converted array texture. -/
def arrayTable : Assets := fun h => if h = 0 then some alreadyArray else none

/-- Table where handle 0 is already converted and handle 1 is a loaded flat
stack. -/
def mixedTable : Assets :=
  fun h => if h = 0 then some alreadyArray else if h = 1 then some flatStack else none

/-- Table where handle 0 is a loaded malformed flat texture and handle 1 a
loaded well-formed flat stack. -/
def malformedTable : Assets :=
  fun h => if h = 0 then some malformedFlat else if h = 1 then some flatStack else none

/-- Table where handle 5 is a loaded flat stack. -/
def dupTable : Assets := fun h => if h = 5 then some flatStack else none

/-- **C1 counterexample.** A registry entry whose handle resolves to a
present texture that happens to be an already-converted array: the pass does
not remove-and-convert it — it panics, producing no next registry state at
all. -/
theorem c1_counterexample :
    (arrayTable 0).isSome = true ∧ convert_skyboxes ⟨[0]⟩ arrayTable = none := by
  refine ⟨rfl, ?_⟩
  unfold convert_skyboxes
  rw [convert_skyboxesAux_panic [0] arrayTable 0 0 alreadyArray rfl rfl rfl]
  rfl

/-- **C1 (amended).** Provided every present texture is still flat and no
present handle occurs twice in the registry, a single pass removes and
converts exactly the entries whose handle resolves to a present texture,
leaves every non-resolving entry pending with its table slot untouched, and
does so within that same pass. -/
theorem c1_pass_converts_exactly_ready (handles : List Handle) (textures : Assets)
    (hflat : all_flat handles textures = true)
    (hdup : no_dup_ready handles textures = true) :
    ∃ tf : Assets,
      convert_skyboxes ⟨handles⟩ textures =
          some (⟨handles.filter fun h => (textures h).isNone⟩, tf) ∧
        (∀ h, (textures h).isNone = true → tf h = textures h) ∧
        (∀ h ∈ handles, ∀ tex, textures h = some tex →
          ∃ conv, reinterpret_stacked_2d_as_array tex 6 = some conv ∧
            tf h = some (set_view_dimension conv TextureViewDimension.Cube)) := by
  obtain ⟨tf, heq, hc2, hc3⟩ := convert_skyboxesAux_characterization handles.length handles
    textures 0 (by omega) (all_flat_spec handles textures hflat)
    (no_dup_ready_spec handles textures hdup)
  refine ⟨tf, ?_, ?_, ?_⟩
  · unfold convert_skyboxes
    rw [heq]
    simp
  · intro h hnone
    exact hc2 h (Or.inr (Option.isNone_iff_eq_none.mp hnone))
  · intro h hmem tex htex
    exact hc3 h (by simpa using hmem) tex htex

/-- **C1 witness.** Handle 0 loaded and flat, handle 1 pending. -/
theorem c1_witness :
    (all_flat [0, 1] flatTable = true ∧ no_dup_ready [0, 1] flatTable = true) ∧
      ∃ tf : Assets,
        convert_skyboxes ⟨[0, 1]⟩ flatTable =
            some (⟨[0, 1].filter fun h => (flatTable h).isNone⟩, tf) ∧
          (∀ h, (flatTable h).isNone = true → tf h = flatTable h) ∧
          (∀ h ∈ [0, 1], ∀ tex, flatTable h = some tex →
            ∃ conv, reinterpret_stacked_2d_as_array tex 6 = some conv ∧
              tf h = some (set_view_dimension conv TextureViewDimension.Cube)) :=
  ⟨⟨by decide, by decide⟩,
    c1_pass_converts_exactly_ready [0, 1] flatTable (by decide) (by decide)⟩

/-- **C2 counterexample.** Submitting the same handle twice via `make_array`
while its flat texture is loaded makes the pass convert it once and then
panic on the second entry: the repeated conversion attempt is neither a
rejection nor a no-op — the process panics. -/
theorem c2_counterexample :
    convert_skyboxes
        (((SkyboxTextureConversion.mk []).make_array 0).make_array 0) flatTable = none := by
  have h0 : (((SkyboxTextureConversion.mk []).make_array 0).make_array 0).handles =
      [0, 0] := rfl
  unfold convert_skyboxes
  rw [h0,
    convert_skyboxesAux_hit [0, 0] flatTable 0 0 flatStack flatStackLayers rfl rfl rfl,
    convert_skyboxesAux_panic ([0, 0].eraseIdx 0)
      (assetsInsert flatTable 0 (set_view_dimension flatStackLayers TextureViewDimension.Cube))
      0 0 (set_view_dimension flatStackLayers TextureViewDimension.Cube) rfl rfl rfl]
  rfl

/-- **C2 (amended).** A conversion attempt against an already-converted
(non-flat) texture panics instead of modifying anything — as the repository
documents on `make_array` — and a scheduler pass that reaches such an entry
panics with it. -/
theorem c2_second_conversion_panics (tex : Image)
    (halready : tex.size.depth_or_array_layers ≠ 1) :
    reinterpret_stacked_2d_as_array tex 6 = none ∧
      ∀ (handles : List Handle) (textures : Assets) (i : Nat) (h : Handle),
        handles.get? i = some h → textures h = some tex →
        convert_skyboxesAux handles textures i = none := by
  have hnone : reinterpret_stacked_2d_as_array tex 6 = none := by
    unfold reinterpret_stacked_2d_as_array
    rw [if_neg halready]
  exact ⟨hnone, fun handles textures i h hget hpres =>
    convert_skyboxesAux_panic handles textures i h tex hget hpres hnone⟩

/-- **C2 witness.** The already-converted texture is rejected by a panic,
also as seen from a full pass over the one-element registry holding it. -/
theorem c2_witness :
    (alreadyArray.size.depth_or_array_layers ≠ 1) ∧
      reinterpret_stacked_2d_as_array alreadyArray 6 = none ∧
        convert_skyboxesAux [0] arrayTable 0 = none :=
  ⟨by decide, (c2_second_conversion_panics alreadyArray (by decide)).1,
    (c2_second_conversion_panics alreadyArray (by decide)).2 [0] arrayTable 0 0 rfl rfl⟩

/-- **C3 counterexample.** A registry holding a malformed loaded entry
(height ≠ 6 × width — here an already-converted array texture) and a second
loaded entry: the pass panics on the malformed entry, so the other pending
entry is never processed — the failure is not local. -/
theorem c3_counterexample :
    (mixedTable 0).isSome = true ∧
      alreadyArray.size.height ≠ 6 * alreadyArray.size.width ∧
        (mixedTable 1).isSome = true ∧
          convert_skyboxes ⟨[0, 1]⟩ mixedTable = none := by
  refine ⟨rfl, by decide, rfl, ?_⟩
  unfold convert_skyboxes
  rw [convert_skyboxesAux_panic [0, 1] mixedTable 0 0 alreadyArray rfl rfl rfl]
  rfl

/-- **C3 (amended).** For flat (not yet reinterpreted) textures the failure
really is local: a registry containing a malformed flat entry (height ≠ 6 ×
width) is drained without any panic, every loaded entry — the malformed one
included — is converted, and every other pending entry survives. -/
theorem c3_flat_malformed_is_local (handles : List Handle) (textures : Assets)
    (hflat : all_flat handles textures = true)
    (hdup : no_dup_ready handles textures = true)
    (hmal : has_malformed handles textures = true) :
    ∃ tf : Assets,
      convert_skyboxes ⟨handles⟩ textures =
          some (⟨handles.filter fun h => (textures h).isNone⟩, tf) ∧
        ∀ h ∈ handles, ∀ tex, textures h = some tex →
          ∃ conv, reinterpret_stacked_2d_as_array tex 6 = some conv ∧
            tf h = some (set_view_dimension conv TextureViewDimension.Cube) := by
  obtain ⟨tf, heq, hc2, hc3⟩ := convert_skyboxesAux_characterization handles.length handles
    textures 0 (by omega) (all_flat_spec handles textures hflat)
    (no_dup_ready_spec handles textures hdup)
  refine ⟨tf, ?_, ?_⟩
  · unfold convert_skyboxes
    rw [heq]
    simp
  · intro h hmem tex htex
    exact hc3 h (by simpa using hmem) tex htex

/-- **C3 witness.** Handle 0 loaded but malformed (1 × 5), handle 1 loaded
and well-formed: one pass converts both and ends with an empty registry. -/
theorem c3_witness :
    (all_flat [0, 1] malformedTable = true ∧ no_dup_ready [0, 1] malformedTable = true ∧
        has_malformed [0, 1] malformedTable = true) ∧
      ∃ tf : Assets,
        convert_skyboxes ⟨[0, 1]⟩ malformedTable =
            some (⟨[0, 1].filter fun h => (malformedTable h).isNone⟩, tf) ∧
          ∀ h ∈ [0, 1], ∀ tex, malformedTable h = some tex →
            ∃ conv, reinterpret_stacked_2d_as_array tex 6 = some conv ∧
              tf h = some (set_view_dimension conv TextureViewDimension.Cube) :=
  ⟨⟨by decide, by decide, by decide⟩,
    c3_flat_malformed_is_local [0, 1] malformedTable (by decide) (by decide) (by decide)⟩

/-- **C4 counterexample.** After converting a loaded flat texture the pass
stores view dimension `Cube`, which is not the claimed `CubeArray` value. -/
theorem c4_counterexample :
    (convert_skyboxes ⟨[0]⟩ flatTable).map
        (fun p => (p.2 0).map fun img => img.texture_view_descriptor) =
      some (some (some ⟨some TextureViewDimension.Cube⟩)) ∧
      TextureViewDimension.Cube ≠ TextureViewDimension.CubeArray := by
  refine ⟨?_, by decide⟩
  unfold convert_skyboxes
  rw [convert_skyboxesAux_hit [0] flatTable 0 0 flatStack flatStackLayers rfl rfl rfl,
    convert_skyboxesAux_break ([0].eraseIdx 0)
      (assetsInsert flatTable 0 (set_view_dimension flatStackLayers TextureViewDimension.Cube))
      0 rfl]
  rfl

/-- **C4 (amended).** Every texture converted by the pass keeps its backing
buffer, is reinterpreted as 6 layers, and has its view-descriptor dimension
set to `Cube` (6 layers viewed as a cube), not `CubeArray`. -/
theorem c4_converted_view_is_cube (handles : List Handle) (textures : Assets)
    (hflat : all_flat handles textures = true)
    (hdup : no_dup_ready handles textures = true) :
    ∃ tf : Assets,
      convert_skyboxes ⟨handles⟩ textures =
          some (⟨handles.filter fun h => (textures h).isNone⟩, tf) ∧
        ∀ h ∈ handles, ∀ tex, textures h = some tex →
          ∃ img2, tf h = some img2 ∧
            img2.texture_view_descriptor = some ⟨some TextureViewDimension.Cube⟩ ∧
              img2.size.depth_or_array_layers = 6 ∧ img2.data = tex.data := by
  obtain ⟨tf, heq, hc2, hc3⟩ := convert_skyboxesAux_characterization handles.length handles
    textures 0 (by omega) (all_flat_spec handles textures hflat)
    (no_dup_ready_spec handles textures hdup)
  refine ⟨tf, ?_, ?_⟩
  · unfold convert_skyboxes
    rw [heq]
    simp
  · intro h hmem tex htex
    obtain ⟨conv, hconv, htf⟩ := hc3 h (by simpa using hmem) tex htex
    obtain ⟨hflat2, hconveq⟩ := (reinterpret_eq_some_iff tex conv).mp hconv
    subst hconveq
    exact ⟨_, htf, set_view_dimension_descriptor _ _, rfl, rfl⟩

/-- **C4 witness.** The converted 1 × 6 texture ends with view dimension
`Cube`, 6 layers, and its original bytes. -/
theorem c4_witness :
    (all_flat [0] flatTable = true ∧ no_dup_ready [0] flatTable = true) ∧
      ∃ tf : Assets,
        convert_skyboxes ⟨[0]⟩ flatTable =
            some (⟨[0].filter fun h => (flatTable h).isNone⟩, tf) ∧
          ∀ h ∈ [0], ∀ tex, flatTable h = some tex →
            ∃ img2, tf h = some img2 ∧
              img2.texture_view_descriptor = some ⟨some TextureViewDimension.Cube⟩ ∧
                img2.size.depth_or_array_layers = 6 ∧ img2.data = tex.data :=
  ⟨⟨by decide, by decide⟩, c4_converted_view_is_cube [0] flatTable (by decide) (by decide)⟩

/-- **C9 counterexample.** With a loaded handle duplicated in the registry,
the pass does not end with the claimed subsequence of non-resolving entries
(which would be the empty registry): it converts the first copy and then
panics on the second. -/
theorem c9_counterexample :
    List.filter (fun h => (dupTable h).isNone) [5, 5] = [] ∧
      convert_skyboxes ⟨[5, 5]⟩ dupTable = none := by
  refine ⟨by decide, ?_⟩
  unfold convert_skyboxes
  rw [convert_skyboxesAux_hit [5, 5] dupTable 0 5 flatStack flatStackLayers rfl rfl rfl,
    convert_skyboxesAux_panic ([5, 5].eraseIdx 0)
      (assetsInsert dupTable 5 (set_view_dimension flatStackLayers TextureViewDimension.Cube))
      0 5 (set_view_dimension flatStackLayers TextureViewDimension.Cube) rfl rfl rfl]
  rfl

/-- **C9 (amended).** Provided every present texture is still flat and no
present handle occurs twice in the registry, the registry after a pass is
exactly the subsequence of the initial registry consisting of the handles
that did not resolve to a present texture, in their original order. -/
theorem c9_pass_keeps_pending_subsequence (handles : List Handle) (textures : Assets)
    (hflat : all_flat handles textures = true)
    (hdup : no_dup_ready handles textures = true) :
    ∃ tf : Assets,
      convert_skyboxes ⟨handles⟩ textures =
        some (⟨handles.filter fun h => (textures h).isNone⟩, tf) := by
  obtain ⟨tf, heq, hc2, hc3⟩ := convert_skyboxesAux_characterization handles.length handles
    textures 0 (by omega) (all_flat_spec handles textures hflat)
    (no_dup_ready_spec handles textures hdup)
  refine ⟨tf, ?_⟩
  unfold convert_skyboxes
  rw [heq]
  simp

/-- **C9 witness.** Registry `[3, 0, 4]` with only handle 0 loaded: the pass
keeps exactly `[3, 4]`, in order. -/
theorem c9_witness :
    (all_flat [3, 0, 4] flatTable = true ∧ no_dup_ready [3, 0, 4] flatTable = true) ∧
      ∃ tf : Assets,
        convert_skyboxes ⟨[3, 0, 4]⟩ flatTable =
          some (⟨[3, 0, 4].filter fun h => (flatTable h).isNone⟩, tf) :=
  ⟨⟨by decide, by decide⟩,
    c9_pass_keeps_pending_subsequence [3, 0, 4] flatTable (by decide) (by decide)⟩

end Claims
